import Mathlib

/-!
Verification of the json-chronicler core (src/unnamed/part_001, the batching
revision of src/src/jsonChronicler.ts) against its specification.

The embedding is a shallow state-machine model of the `JsonChronicler` class.
JavaScript numbers are modelled as `Int` (all values used by the program are
integral), `JSON.stringify` output as `String`, promises by explicit state
passing plus numeric promise identities, and the log directory as an
association list from file names to file contents.  The single-threaded
cooperative scheduling of node means each queued file operation runs to
completion before the next starts, which is what the sequential model
captures; the batch timer is left implicit (a drain is an explicit step).
-/

/-- Mirrors the `RotationOptions` interface (part_001 lines 18-26).  Every
field is optional; JS `number` is modelled as `Int`. -/
structure RotationOptions where
  days : Option Int := none
  hours : Option Int := none
  minutes : Option Int := none
  seconds : Option Int := none
  milliseconds : Option Int := none
  maxFileSize : Option Int := none
  maxFileCount : Option Int := none
deriving Repr, DecidableEq

/-- JS truthiness of an optional number: `undefined` and `0` are falsy
(`NaN` is not representable in this integer model). -/
def truthy : Option Int → Bool
  | none => false
  | some n => n != 0

/-- Mirrors `getMsFromRotationOptions` (part_001 lines 33-41): a running
total, each component added only when truthy. -/
def getMsFromRotationOptions (options : RotationOptions) : Int :=
  let total : Int := 0
  let total := if truthy options.days then total + options.days.getD 0 * 86400000 else total
  let total := if truthy options.hours then total + options.hours.getD 0 * 3600000 else total
  let total := if truthy options.minutes then total + options.minutes.getD 0 * 60000 else total
  let total := if truthy options.seconds then total + options.seconds.getD 0 * 1000 else total
  let total := if truthy options.milliseconds then total + options.milliseconds.getD 0 else total
  total

/-- A record submitted to `saveRecord`.  A JS object is mutable, so the queued
closure that later calls `JSON.stringify(record)` can observe a different
value than the one current when `saveRecord` was invoked.  The model keeps
just the two observation points that matter: the serialized form the record
had at submission time and the serialized form it has when the batch drain
executes its operation. -/
structure Rec where
  atSubmit : String
  atDrain : String
deriving Repr, DecidableEq

/-! ### The regex fragment used by `compactLogs`

`compactLogs` builds pattern *strings* `` `${this.logName}.*\.json` `` and
`'.*\.json.gz'` and applies `String.prototype.match`, which converts the
string to a `RegExp` and searches it *unanchored* anywhere in the file name.
The only constructs appearing in those patterns are literal characters, the
`.` wildcard, and `.*`; the matcher below implements exactly those, and
`jsSearch` reproduces the unanchored search by padding with `.*` on both
sides. -/

/-- One element of a simple pattern: a literal character, the `.` wildcard,
or `.*`. -/
inductive SPat where
  | lit : Char → SPat
  | anyChar : SPat
  | anyStar : SPat
deriving Repr, DecidableEq

/-- Full (anchored) match of a simple pattern against a character list,
written with an explicit fuel argument so that the recursion is structural
(every recursive call shrinks `ps.length + s.length`, so
`patMatch` below always supplies enough fuel and the `0` base case is never
reached). -/
def patMatchF : Nat → List SPat → List Char → Bool
  | 0, _, _ => false
  | _ + 1, [], [] => true
  | _ + 1, [], _ :: _ => false
  | _ + 1, SPat.lit _ :: _, [] => false
  | f + 1, SPat.lit c :: ps, a :: as => c == a && patMatchF f ps as
  | _ + 1, SPat.anyChar :: _, [] => false
  | f + 1, SPat.anyChar :: ps, _ :: as => patMatchF f ps as
  | f + 1, SPat.anyStar :: ps, [] => patMatchF f ps []
  | f + 1, SPat.anyStar :: ps, a :: as =>
    patMatchF f ps (a :: as) || patMatchF f (SPat.anyStar :: ps) as

/-- Full (anchored) match of a simple pattern against a character list. -/
def patMatch (ps : List SPat) (s : List Char) : Bool :=
  patMatchF (ps.length + s.length + 1) ps s

/-- JS `fileName.match(pattern)` as a Bool: unanchored search. -/
def jsSearch (pat : List SPat) (fileName : String) : Bool :=
  patMatch (SPat.anyStar :: (pat ++ [SPat.anyStar])) fileName.data

/-- Interpolating a plain string into a `RegExp` source: `.` becomes the
wildcard, all other characters used by this program are literals. -/
def regexOfString (s : String) : List SPat :=
  s.data.map (fun c => if c == '.' then SPat.anyChar else SPat.lit c)

/-- The pattern string `` `${this.logName}.*\.json` `` (part_001 line 276). -/
def logMatch (logName : String) : List SPat :=
  regexOfString logName ++
    [SPat.anyStar, SPat.lit '.', SPat.lit 'j', SPat.lit 's', SPat.lit 'o', SPat.lit 'n']

/-- The pattern string `'.*\.json.gz'` (part_001 line 277); note the
unescaped `.` before `gz`. -/
def compressMatch : List SPat :=
  [SPat.anyStar, SPat.lit '.', SPat.lit 'j', SPat.lit 's', SPat.lit 'o', SPat.lit 'n',
    SPat.anyChar, SPat.lit 'g', SPat.lit 'z']

/-! ### The log directory

The directory is an association list from file name to file content.  The
only handles the program holds are to files in this one directory, so a
handle is identified by the name the file had when opened; writes through a
handle whose file was unlinked go to the detached inode and are invisible,
which `fsAppend` models by leaving the listing unchanged. -/

/-- Directory contents: file name paired with file bytes, in listing order. -/
abbrev Fs := List (String × String)

/-- Look up a file's content by name. -/
def fsGet : Fs → String → Option String
  | [], _ => none
  | (m, c) :: rest, n => if m == n then some c else fsGet rest n

/-- `fs.access` succeeding: the name is present in the directory. -/
def fsHas (fs : Fs) (n : String) : Bool :=
  (fsGet fs n).isSome

/-- `fs.open(name, 'w')` followed by writing `content`: truncate an existing
entry or append a fresh one at the end of the listing. -/
def fsSet : Fs → String → String → Fs
  | [], n, c => [(n, c)]
  | (m, d) :: rest, n, c => if m == n then (m, c) :: rest else (m, d) :: fsSet rest n c

/-- A `write` through an open handle: append to the named entry; a write to
an unlinked file changes nothing visible. -/
def fsAppend : Fs → String → String → Fs
  | [], _, _ => []
  | (m, d) :: rest, n, t => if m == n then (m, d ++ t) :: rest else (m, d) :: fsAppend rest n t

/-- `fs.unlink`: drop the named entry. -/
def fsRemove : Fs → String → Fs
  | [], _ => []
  | (m, d) :: rest, n => if m == n then rest else (m, d) :: fsRemove rest n

/-! ### Chronicler state and operations (part_001, class `JsonChronicler`) -/

/-- The mutable fields of a `JsonChronicler` instance together with its
environment: the wall clock (`new Date().getTime()`) and the log directory.
`operationPromise` and `disposePromise` are promise identities (numbers drawn
from `nextPromise`); `closed` records every handle that has been closed. -/
structure ChronState where
  firstWrite : Bool
  fileHandle : Option String
  currentFile : Option String
  operationQueue : List Rec
  operationPromise : Option Nat
  disposePromise : Option Nat
  lastRotationMs : Option Int
  disposed : Bool
  logName : String
  rotationIntervalMs : Int
  fs : Fs
  closed : List String
  nextPromise : Nat
  clock : Int
deriving Repr, DecidableEq

/-- The constructor (part_001 lines 88-107): everything empty, the rotation
interval normalized once from the options. -/
def newChronicler (logName : String) (rotationSettings : RotationOptions) (clock : Int) :
    ChronState :=
  { firstWrite := true
    fileHandle := none
    currentFile := none
    operationQueue := []
    operationPromise := none
    disposePromise := none
    lastRotationMs := none
    disposed := false
    logName := logName
    rotationIntervalMs := getMsFromRotationOptions rotationSettings
    fs := []
    closed := []
    nextPromise := 0
    clock := clock }

/-- `generateFilename` (line 133): `` `${this.logName}.${new Date().getTime()}.json` ``. -/
def generateFilename (s : ChronState) : String :=
  s.logName ++ "." ++ toString s.clock ++ ".json"

/-- `getCurrentFilename` (line 297): `this.currentFile || "N/A"`; the empty
string is falsy in JS. -/
def getCurrentFilename (s : ChronState) : String :=
  match s.currentFile with
  | some f => if f == "" then "N/A" else f
  | none => "N/A"

/-- `shouldCreateFile` (line 186): true iff `fs.access` on the current
filename fails, i.e. the name is missing from the directory. -/
def shouldCreateFile (s : ChronState) : Bool :=
  !(fsHas s.fs (getCurrentFilename s))

/-- `timeTillRotation` (line 222), in seconds; `Math.floor` is `Int.fdiv`. -/
def timeTillRotation (s : ChronState) : Int :=
  match s.lastRotationMs with
  | none => Int.fdiv s.rotationIntervalMs 1000
  | some last =>
    let rotationTime := last + s.rotationIntervalMs
    let t := rotationTime - s.clock
    if t == 0 then 0 else Int.fdiv t 1000

/-- `shouldRotate` (line 200). -/
def shouldRotate (s : ChronState) : Bool :=
  timeTillRotation s < 0

/-- `createLogFile` (line 172): `mkdir` (implicit — the model is the log
directory), open with mode `'w'`, write the single `[` byte.  The caller
stores the returned handle. -/
def createLogFile (s : ChronState) (fileName : String) : ChronState :=
  { s with fs := fsSet s.fs fileName "[" }

/-- `compressLog` (line 257): gzip-pipeline `name` into `name ++ ".gz"` and
unlink the original.  A name in `failSet` models a rejecting pipeline; the
original is then kept (the incomplete `.gz`, stream closing and the
`finally` block have no further visible effect on the listing).  Compressed
bytes are not inspected by any property, so the payload is carried over
verbatim. -/
def compressLog (failSet : List String) (fs : Fs) (logFile : String) :
    Except String Unit × Fs :=
  if failSet.contains logFile then
    (Except.error ("pipeline failed: " ++ logFile), fs)
  else
    let content := (fsGet fs logFile).getD ""
    (Except.ok (), fsSet (fsRemove fs logFile) (logFile ++ ".gz") content)

/-- The `for ... of files { await this.compressLog(fileName) }` loop of
`compactLogs` (lines 288-290): sequential, aborting on the first rejection
(there is no catch around the loop body). -/
def compressAll (failSet : List String) (fs : Fs) : List String → Except String Unit × Fs
  | [] => (Except.ok (), fs)
  | f :: rest =>
    match compressLog failSet fs f with
    | (Except.error e, fs') => (Except.error e, fs')
    | (Except.ok _, fs') => compressAll failSet fs' rest

/-- The three filters of `compactLogs` (lines 280-285): keep names matching
the unanchored `logMatch` pattern, drop names matching the unanchored
`compressMatch` pattern, drop the current file name (`undefined` compares
unequal to every string). -/
def compactSelect (logName : String) (currentFile : Option String) (files : List String) :
    List String :=
  ((files.filter (fun f => jsSearch (logMatch logName) f)).filter
      (fun f => !(jsSearch compressMatch f))).filter
    (fun f => some f != currentFile)

/-- `compactLogs` (line 275): snapshot the directory listing, filter it,
compress each selected file in order. -/
def compactLogs (failSet : List String) (s : ChronState) : Except String Unit × ChronState :=
  let files := compactSelect s.logName s.currentFile (s.fs.map Prod.fst)
  match compressAll failSet s.fs files with
  | (r, fs') => (r, { s with fs := fs' })

/-- `rotateLog` (line 235): open the new file, swap the bookkeeping, close
the previous handle after writing `]` to it, then `await this.compactLogs()`
— a rejection there propagates out of `rotateLog` before `lastRotationMs`
and `firstWrite` are updated. -/
def rotateLog (failSet : List String) (s : ChronState) : Except String String × ChronState :=
  let oldHandle := s.fileHandle
  let name := generateFilename s
  let s1 := { createLogFile s name with fileHandle := some name, currentFile := some name }
  let s2 := match oldHandle with
    | some h => { s1 with fs := fsAppend s1.fs h "]", closed := s1.closed ++ [h] }
    | none => s1
  match compactLogs failSet s2 with
  | (Except.error e, s3) => (Except.error e, s3)
  | (Except.ok _, s3) =>
    (Except.ok name, { s3 with lastRotationMs := some s.clock, firstWrite := true })

/-- `saveRecord` (line 142): throw `"Object Disposed!"` when disposed,
otherwise push the operation closure (which captures the record object, not
its serialization) onto the queue and hand the caller a pending promise. -/
def saveRecord (s : ChronState) (r : Rec) : Except String Unit × ChronState :=
  if s.disposed then (Except.error "Object Disposed!", s)
  else (Except.ok (), { s with operationQueue := s.operationQueue ++ [r] })

/-- The body of one queued operation (lines 148-163): `JSON.stringify` the
captured record *now*, create the file if the current one is missing, rotate
if due, then write the record prefixed with `,\n` unless it is the file's
first write.  A rejection from `rotateLog` leaves the operation's promise
unsettled; the model surfaces it as the `Except.error` branch. -/
def runOp (failSet : List String) (s : ChronState) (r : Rec) :
    Except String Unit × ChronState :=
  let string := r.atDrain
  let s1 :=
    if shouldCreateFile s then
      let fileName := generateFilename s
      { createLogFile s fileName with
          fileHandle := some fileName
          currentFile := some fileName
          lastRotationMs := some s.clock }
    else s
  let step2 : Except String Unit × ChronState :=
    if shouldRotate s1 then
      match rotateLog failSet s1 with
      | (Except.error e, s2) => (Except.error e, s2)
      | (Except.ok _, s2) => (Except.ok (), s2)
    else (Except.ok (), s1)
  match step2 with
  | (Except.error e, s2) => (Except.error e, s2)
  | (Except.ok _, s2) =>
    let s3 :=
      match s2.fileHandle with
      | some h =>
        { s2 with fs := fsAppend s2.fs h ((if !s2.firstWrite then ",\n" else "") ++ string) }
      | none => s2
    (Except.ok (), { s3 with firstWrite := false })

/-- Executes a list of operations in order, stopping at the first operation
whose promise never settles. -/
def runOps (failSet : List String) : ChronState → List Rec → Except String Unit × ChronState
  | s, [] => (Except.ok (), s)
  | s, r :: rs =>
    match runOp failSet s r with
    | (Except.error e, s') => (Except.error e, s')
    | (Except.ok _, s') => runOps failSet s' rs

/-- `processFileOperations` (line 112): the drain loop repeatedly takes
`this.operationQueue.pop()` — `Array.prototype.pop` removes from the *tail*,
the same end `saveRecord` pushes to — and awaits it, until the queue is
empty.  No operation enqueues (only `saveRecord` does, and it is never called
from inside an operation), so the loop executes exactly the reverse of the
queued list and ends with an empty queue; `operationPromise` is cleared again
by the time the drain's promise resolves. -/
def processFileOperations (failSet : List String) (s : ChronState) :
    Except String Unit × ChronState :=
  runOps failSet { s with operationQueue := [] } s.operationQueue.reverse

/-- `disposeAsync` (line 322): on a repeat call return the stored disposal
promise untouched; otherwise mark disposed, cancel the timer, allocate the
disposal promise, start a drain if operations are queued and none is running,
await it, and finally write `]` to and close the open handle.  If the drain
never settles (a queued operation's rotation failed) the closing bracket is
never written. -/
def disposeAsync (failSet : List String) (s : ChronState) : Option Nat × ChronState :=
  if s.disposed then (s.disposePromise, s)
  else
    let s1 := { s with disposed := true }
    let pid := s1.nextPromise
    let s2 := { s1 with nextPromise := pid + 1, disposePromise := some pid }
    let dr :=
      if s2.operationPromise == none && decide (0 < s2.operationQueue.length) then
        processFileOperations failSet s2
      else (Except.ok (), s2)
    match dr with
    | (Except.error _, s3) => (some pid, s3)
    | (Except.ok _, s3) =>
      match s3.fileHandle with
      | some h => (some pid, { s3 with fs := fsAppend s3.fs h "]", closed := s3.closed ++ [h] })
      | none => (some pid, s3)

/-- An external actor (not this program) deleting a file from the log
directory, as in the missing-file edge case of the spec. -/
def externalDelete (s : ChronState) (n : String) : ChronState :=
  { s with fs := fsRemove s.fs n }

/-- Wall clock advancing between steps. -/
def tick (s : ChronState) (t : Int) : ChronState :=
  { s with clock := t }

/-- A sequence of `saveRecord` calls, keeping only the state (each call's
promise settles later, when its operation runs). -/
def pushAll (s : ChronState) (rs : List Rec) : ChronState :=
  rs.foldl (fun a r => (saveRecord a r).2) s

/-- `,\n`-separated rendering of the elements of a JSON array file. -/
def sepJoin : List String → String
  | [] => ""
  | [a] => a
  | a :: b :: rest => a ++ ",\n" ++ sepJoin (b :: rest)

/-- The byte shape of a finalized archive holding the given serialized
records in order. -/
def renderArchive (recs : List String) : String :=
  "[" ++ sepJoin recs ++ "]"

/-- The bytes appended to an already started file by a run of non-first
writes, one per record, in order. -/
def tailJoin : List Rec → String
  | [] => ""
  | r :: rs => (",\n" ++ r.atDrain) ++ tailJoin rs

/-- Iterated handle writes: the directory after appending each record of the
list (with separator) to the file `h`, in order. -/
def appendChain (fs : Fs) (h : String) : List Rec → Fs
  | [] => fs
  | r :: rs => appendChain (fsAppend fs h (",\n" ++ r.atDrain)) h rs

/-! ### Concrete scenario fixtures -/

/-- Rotation settings used by the concrete scenarios: 500 seconds, like the
repository's test fixtures. -/
def rotOpts : RotationOptions := { seconds := some 500 }

/-- A freshly constructed chronicler: log name `log`, 500 s rotation, clock
at epoch-millisecond 1000. -/
def chron0 : ChronState := newChronicler "log" rotOpts 1000

/-- One full client run: submit the records (all land in the same batch
window) and dispose, which drains the queue and finalizes the file. -/
def runC2 (rs : List Rec) : ChronState := (disposeAsync [] (pushAll chron0 rs)).2

/-! ### Helper lemmas -/

theorem fsGet_fsAppend_self (fs : Fs) (n t : String) :
    fsGet (fsAppend fs n t) n = (fsGet fs n).map (· ++ t) := by
  induction fs with
  | nil => rfl
  | cons p rest ih =>
    obtain ⟨m, d⟩ := p
    by_cases h : (m == n) = true
    · simp [fsAppend, fsGet, h]
    · simp only [Bool.not_eq_true] at h
      simp [fsAppend, fsGet, h, ih]

theorem fsHas_fsAppend (fs : Fs) (n t m : String) :
    fsHas (fsAppend fs n t) m = fsHas fs m := by
  induction fs with
  | nil => rfl
  | cons p rest ih =>
    obtain ⟨k, d⟩ := p
    by_cases h1 : (k == n) = true
    · by_cases h2 : (k == m) = true
      · simp [fsAppend, fsGet, fsHas, h1, h2]
      · simp only [Bool.not_eq_true] at h2
        simp [fsAppend, fsGet, fsHas, h1, h2]
    · simp only [Bool.not_eq_true] at h1
      by_cases h2 : (k == m) = true
      · simp [fsAppend, fsGet, fsHas, h1, h2]
      · simp only [Bool.not_eq_true] at h2
        simpa [fsAppend, fsGet, fsHas, h1, h2] using ih

theorem fsGet_appendChain (rs : List Rec) (fs : Fs) (h : String) (c : String)
    (hc : fsGet fs h = some c) :
    fsGet (appendChain fs h rs) h = some (c ++ tailJoin rs) := by
  induction rs generalizing fs c with
  | nil => simpa [appendChain, tailJoin] using hc
  | cons r rs ih =>
    have hstep : fsGet (fsAppend fs h (",\n" ++ r.atDrain)) h =
        some (c ++ (",\n" ++ r.atDrain)) := by
      rw [fsGet_fsAppend_self, hc]
      rfl
    rw [appendChain, ih _ _ hstep, tailJoin, String.append_assoc]

theorem pushAll_not_disposed (s : ChronState) (rs : List Rec) (h : s.disposed = false) :
    pushAll s rs = { s with operationQueue := s.operationQueue ++ rs } := by
  induction rs generalizing s with
  | nil => simp [pushAll]
  | cons r rs ih =>
    have h1 : pushAll s (r :: rs) =
        pushAll { s with operationQueue := s.operationQueue ++ [r] } rs := by
      simp [pushAll, saveRecord, h]
    rw [h1, ih { s with operationQueue := s.operationQueue ++ [r] } h]
    simp

theorem sepJoin_tailJoin (x : String) (l : List Rec) :
    sepJoin (x :: l.map Rec.atDrain) = x ++ tailJoin l := by
  induction l generalizing x with
  | nil => simp [sepJoin, tailJoin]
  | cons b l ih =>
    simp only [List.map_cons, sepJoin, tailJoin, ih, String.append_assoc]

/-! ### C4 — rotation interval arithmetic -/

theorem addIf_eq (c : Option Int) (m t : Int) :
    (if truthy c then t + c.getD 0 * m else t) = t + c.getD 0 * m := by
  cases c with
  | none => simp [truthy]
  | some v =>
    by_cases hv : v = 0
    · simp [truthy, hv]
    · simp [truthy, hv]

theorem addIf1_eq (c : Option Int) (t : Int) :
    (if truthy c then t + c.getD 0 else t) = t + c.getD 0 := by
  cases c with
  | none => simp [truthy]
  | some v =>
    by_cases hv : v = 0
    · simp [truthy, hv]
    · simp [truthy, hv]

/-- C4 (counterexample): the claim quantifies over *every* rotation-options
object and asserts the result is ≥ 0, but the code does not validate signs:
`{days: -1}` yields −86 400 000. -/
theorem C4_counterexample :
    getMsFromRotationOptions { days := some (-1) } = -86400000 ∧
    ¬ (0 ≤ getMsFromRotationOptions { days := some (-1) }) := by
  constructor <;> decide

/-- C4 (amended): `getMsFromRotationOptions` always equals the weighted sum
of the present components (absent components contribute 0, and a present 0
is skipped, which adds the same 0); the result is ≥ 0 whenever every present
component is ≥ 0 — not for arbitrary (possibly negative) inputs. -/
theorem C4_weighted_sum (o : RotationOptions)
    (hd : 0 ≤ o.days.getD 0) (hh : 0 ≤ o.hours.getD 0) (hm : 0 ≤ o.minutes.getD 0)
    (hs : 0 ≤ o.seconds.getD 0) (hms : 0 ≤ o.milliseconds.getD 0) :
    getMsFromRotationOptions o =
      o.days.getD 0 * 86400000 + o.hours.getD 0 * 3600000 + o.minutes.getD 0 * 60000 +
        o.seconds.getD 0 * 1000 + o.milliseconds.getD 0 ∧
    0 ≤ getMsFromRotationOptions o := by
  have he : getMsFromRotationOptions o =
      o.days.getD 0 * 86400000 + o.hours.getD 0 * 3600000 + o.minutes.getD 0 * 60000 +
        o.seconds.getD 0 * 1000 + o.milliseconds.getD 0 := by
    simp only [getMsFromRotationOptions, addIf_eq, addIf1_eq]
    ring
  refine ⟨he, ?_⟩
  rw [he]
  omega

/-- C4 witness: the spec's own multi-component example
`{days:2,hours:3,minutes:20,seconds:3,milliseconds:21}`. -/
theorem C4_witness :
    getMsFromRotationOptions
        { days := some 2, hours := some 3, minutes := some 20, seconds := some 3,
          milliseconds := some 21 } =
      (some (2 : Int)).getD 0 * 86400000 + (some (3 : Int)).getD 0 * 3600000 +
        (some (20 : Int)).getD 0 * 60000 + (some (3 : Int)).getD 0 * 1000 +
        (some (21 : Int)).getD 0 ∧
    0 ≤ getMsFromRotationOptions
        { days := some 2, hours := some 3, minutes := some 20, seconds := some 3,
          milliseconds := some 21 } :=
  C4_weighted_sum _ (by decide) (by decide) (by decide) (by decide) (by decide)

/-! ### C3 — writes after disposal -/

/-- C3: a `saveRecord` call made after disposal has begun rejects with the
literal message `"Object Disposed!"` and leaves the state — in particular
the operation queue — completely unchanged. -/
theorem C3_disposed_rejects (s : ChronState) (r : Rec) (h : s.disposed = true) :
    saveRecord s r = (Except.error "Object Disposed!", s) := by
  simp [saveRecord, h]

/-- A disposed instance used to witness C3. -/
def disposedExample : ChronState := { newChronicler "log" rotOpts 1000 with disposed := true }

/-- C3 witness: concrete rejected call. -/
theorem C3_witness :
    saveRecord disposedExample ⟨"W", "W"⟩ = (Except.error "Object Disposed!", disposedExample) :=
  C3_disposed_rejects disposedExample ⟨"W", "W"⟩ rfl

/-! ### C1 — commit order within one batch window -/

/-- C1: evaluating the drain at the failing input.  Record `A` is submitted
before record `B` in the same batch window, yet the drain (which pops from
the tail of the queue) writes `B`'s bytes first: the file reads `[B,\nA`,
not `[A,\nB`.  This contradicts the FIFO contract the spec states (and
itself flags in §9 as a deviation of the reference implementation). -/
theorem C1_lifo_batch :
    fsGet (processFileOperations [] (pushAll chron0 [⟨"A", "A"⟩, ⟨"B", "B"⟩])).2.fs
        "log.1000.json" = some "[B,\nA" := by
  rfl

/-! ### C2 — final file bytes -/

/-- C2 (counterexample): two records submitted in one batch window, then
disposal.  The claim predicts file bytes `[1,\n2]` (elements in submission
order); the code produces `[2,\n1]`. -/
theorem C2_counterexample :
    fsGet (runC2 [⟨"1", "1"⟩, ⟨"2", "2"⟩]).fs "log.1000.json" = some "[2,\n1]" ∧
    (some "[2,\n1]" : Option String) ≠ some "[1,\n2]" :=
  ⟨rfl, by decide⟩

/-! ### C5 — compaction file selection -/

/-- A chronicler whose directory holds another logger's file
`other-mylog.123.json`; this logger's name is `mylog` and it has no active
file. -/
def stateC5 : ChronState :=
  { firstWrite := true, fileHandle := none, currentFile := none, operationQueue := [],
    operationPromise := none, disposePromise := none, lastRotationMs := none,
    disposed := false, logName := "mylog", rotationIntervalMs := 500000,
    fs := [("other-mylog.123.json", "x")], closed := [], nextPromise := 0, clock := 0 }

/-- C5: evaluating compaction at the failing input.  The pattern
`` `${logName}.*\.json` `` is searched *unanchored*, so another logger's
file `other-mylog.123.json` matches prefix `mylog` as an inner substring, is
selected, gzip-compressed and its plaintext deleted — exactly what the
name-anchored contract forbids. -/
theorem C5_substring_selected :
    compactSelect "mylog" none ["other-mylog.123.json"] = ["other-mylog.123.json"] ∧
    (compactLogs [] stateC5).2.fs = [("other-mylog.123.json.gz", "x")] :=
  ⟨rfl, rfl⟩

/-! ### C9 — when serialization happens -/

/-- C9 (counterexample): two runs whose single records are equal (`"S"`) at
the moment `saveRecord` is called, but one record is mutated before the
batch drain runs (its drain-time serialization is `"T"`).  The files differ
(`[S]` vs `[T]`), so the core does *not* copy the serialized form at
submission — the queued closure retains the record reference and serializes
at drain time. -/
theorem C9_counterexample :
    (⟨"S", "S"⟩ : Rec).atSubmit = (⟨"S", "T"⟩ : Rec).atSubmit ∧
    (disposeAsync [] (pushAll chron0 [⟨"S", "S"⟩])).2.fs ≠
      (disposeAsync [] (pushAll chron0 [⟨"S", "T"⟩])).2.fs :=
  ⟨rfl, by decide⟩

/-! ### Steady-state drain lemmas

When the active file exists on disk, rotation is not due, and the file has
already received its first write, each queued operation reduces to a pure
`,\n`-prefixed append of its record's drain-time serialization. -/

theorem runOp_steady (s : ChronState) (h : String) (r : Rec)
    (hfh : s.fileHandle = some h) (hcf : s.currentFile = some h) (hne : (h == "") = false)
    (hfs : fsHas s.fs h = true) (hrot : shouldRotate s = false) (hfw : s.firstWrite = false) :
    runOp [] s r =
      (Except.ok (),
        { s with fs := fsAppend s.fs h (",\n" ++ r.atDrain), firstWrite := false }) := by
  have hcfn : getCurrentFilename s = h := by
    simp [getCurrentFilename, hcf, hne]
  have hscf : shouldCreateFile s = false := by
    simp [shouldCreateFile, hcfn, hfs]
  simp [runOp, hscf, hrot, hfh, hfw]

theorem runOps_steady (rs : List Rec) (s : ChronState) (h : String)
    (hfh : s.fileHandle = some h) (hcf : s.currentFile = some h) (hne : (h == "") = false)
    (hfs : fsHas s.fs h = true) (hrot : shouldRotate s = false) (hfw : s.firstWrite = false) :
    runOps [] s rs =
      (Except.ok (), { s with fs := appendChain s.fs h rs, firstWrite := false }) := by
  induction rs generalizing s with
  | nil =>
    cases s
    simp only at hfw
    subst hfw
    rfl
  | cons r rs ih =>
    have h1 := runOp_steady s h r hfh hcf hne hfs hrot hfw
    have h2 : runOps [] s (r :: rs) =
        runOps [] { s with fs := fsAppend s.fs h (",\n" ++ r.atDrain), firstWrite := false } rs := by
      rw [runOps, h1]
    rw [h2]
    have hfs2 : fsHas (fsAppend s.fs h (",\n" ++ r.atDrain)) h = true := by
      rw [fsHas_fsAppend]
      exact hfs
    exact ih { s with fs := fsAppend s.fs h (",\n" ++ r.atDrain), firstWrite := false }
      hfh hcf hfs2 hrot rfl

/-! ### Disposal plumbing lemmas -/

theorem disposeAsync_drain (f : List String) (s : ChronState) (u : Unit) (s3 : ChronState)
    (h0 : String) (hnd : s.disposed = false) (hop : s.operationPromise = none)
    (hq : s.operationQueue ≠ [])
    (hdr : processFileOperations f
        { s with disposed := true, nextPromise := s.nextPromise + 1,
                 disposePromise := some s.nextPromise } = (Except.ok u, s3))
    (hfh3 : s3.fileHandle = some h0) :
    disposeAsync f s =
      (some s.nextPromise,
        { s3 with fs := fsAppend s3.fs h0 "]", closed := s3.closed ++ [h0] }) := by
  unfold disposeAsync
  rw [if_neg (by simp [hnd])]
  dsimp only
  rw [show (s.operationPromise == none) = true from by rw [hop]; rfl]
  rw [show decide (0 < s.operationQueue.length) = true from
    decide_eq_true (List.length_pos.mpr hq)]
  rw [if_pos (show (true && true) = true from rfl), hdr]
  dsimp only
  rw [hfh3]

theorem disposeAsync_noQueue (f : List String) (s : ChronState) (h0 : String)
    (hnd : s.disposed = false) (hq : s.operationQueue = []) (hfh : s.fileHandle = some h0) :
    disposeAsync f s =
      (some s.nextPromise,
        { s with disposed := true, nextPromise := s.nextPromise + 1,
                 disposePromise := some s.nextPromise,
                 fs := fsAppend s.fs h0 "]", closed := s.closed ++ [h0] }) := by
  unfold disposeAsync
  rw [if_neg (by simp [hnd])]
  dsimp only
  rw [show decide (0 < s.operationQueue.length) = false from by rw [hq]; rfl]
  rw [if_neg (show ¬((s.operationPromise == none && false) = true) from by simp)]
  dsimp only
  rw [hfh]

/-! ### C7 — disposal drains the queue before finalizing -/

/-- A mid-life chronicler: active file `log.1000.json` on disk with bytes
`c`, handle open, already written to (`firstWrite = false`), rotation not
due, no drain in flight, and `rs` operations still queued. -/
def stateC7 (c : String) (rs : List Rec) : ChronState :=
  { firstWrite := false, fileHandle := some "log.1000.json",
    currentFile := some "log.1000.json", operationQueue := rs, operationPromise := none,
    disposePromise := none, lastRotationMs := some 1000, disposed := false,
    logName := "log", rotationIntervalMs := 500000, fs := [("log.1000.json", c)],
    closed := [], nextPromise := 0, clock := 1000 }

/-- The state the disposal coordinator hands to the drain it starts on
`stateC7`: disposed marked, the disposal promise allocated, queue snapshot
taken by the drain loop. -/
def stateC7drained (c : String) : ChronState :=
  { firstWrite := false, fileHandle := some "log.1000.json",
    currentFile := some "log.1000.json", operationQueue := [], operationPromise := none,
    disposePromise := some 0, lastRotationMs := some 1000, disposed := true,
    logName := "log", rotationIntervalMs := 500000, fs := [("log.1000.json", c)],
    closed := [], nextPromise := 1, clock := 1000 }

/-- C7: disposal with operations still queued starts a drain (none is
running), executes every queued operation — their bytes all land in the
file, in drain order — and only then writes the closing `]` (the last bytes
of the file) and closes the handle; the queue ends empty, so no record is
dropped. -/
theorem C7_dispose_drains (c : String) (rs : List Rec) :
    (disposeAsync [] (stateC7 c rs)).1 = some 0 ∧
    fsGet (disposeAsync [] (stateC7 c rs)).2.fs "log.1000.json" =
      some ((c ++ tailJoin rs.reverse) ++ "]") ∧
    (disposeAsync [] (stateC7 c rs)).2.operationQueue = [] ∧
    (disposeAsync [] (stateC7 c rs)).2.closed = ["log.1000.json"] ∧
    (disposeAsync [] (stateC7 c rs)).2.disposed = true := by
  cases rs with
  | nil =>
    rw [disposeAsync_noQueue [] (stateC7 c []) "log.1000.json" rfl rfl rfl]
    refine ⟨rfl, ?_, rfl, rfl, rfl⟩
    dsimp only
    rw [fsGet_fsAppend_self]
    simp [fsGet, tailJoin, String.append_empty]
  | cons r rs' =>
    have hsteady := runOps_steady ((r :: rs').reverse) (stateC7drained c)
      "log.1000.json" rfl rfl rfl rfl rfl rfl
    have hda := disposeAsync_drain [] (stateC7 c (r :: rs')) () _ "log.1000.json"
      rfl rfl (List.cons_ne_nil r rs') hsteady rfl
    rw [hda]
    refine ⟨rfl, ?_, rfl, rfl, rfl⟩
    dsimp only
    rw [fsGet_fsAppend_self,
      fsGet_appendChain ((r :: rs').reverse) (stateC7drained c).fs "log.1000.json" c rfl]
    rfl

/-! ### C2 — the finalized archive's byte shape -/

/-- The state the disposal coordinator hands to the drain it starts on a
fresh `chron0` whose queue it has just snapshotted. -/
def chron0drained : ChronState :=
  { firstWrite := true, fileHandle := none, currentFile := none, operationQueue := [],
    operationPromise := none, disposePromise := some 0, lastRotationMs := none,
    disposed := true, logName := "log", rotationIntervalMs := 500000, fs := [],
    closed := [], nextPromise := 1, clock := 1000 }

/-- State after the first drained operation on the fresh instance: it
created `log.1000.json` (writing `[`), stamped the rotation time, and
appended its record without a separator. -/
def chron0afterFirst (a : Rec) : ChronState :=
  { firstWrite := false, fileHandle := some "log.1000.json",
    currentFile := some "log.1000.json", operationQueue := [], operationPromise := none,
    disposePromise := some 0, lastRotationMs := some 1000, disposed := true,
    logName := "log", rotationIntervalMs := 500000,
    fs := [("log.1000.json", "[" ++ a.atDrain)], closed := [], nextPromise := 1,
    clock := 1000 }

theorem runOp_fresh (a : Rec) :
    runOp [] chron0drained a = (Except.ok (), chron0afterFirst a) := by
  rfl

theorem runOps_fresh (a : Rec) (l : List Rec) :
    runOps [] chron0drained (a :: l) =
      (Except.ok (),
        { chron0afterFirst a with
            fs := appendChain (chron0afterFirst a).fs "log.1000.json" l
            firstWrite := false }) := by
  have h1 : runOps [] chron0drained (a :: l) = runOps [] (chron0afterFirst a) l := by
    rw [runOps, runOp_fresh a]
  rw [h1]
  exact runOps_steady l (chron0afterFirst a) "log.1000.json" rfl rfl rfl rfl rfl rfl

/-- C2 (amended): after N ≥ 1 `saveRecord` calls landing in one batch window
and a successful disposal, the archive file's bytes are `[`, then the N
records' drain-time serializations separated by `,\n` — in *commit* order,
which is the reverse of submission order within the batch — then `]`.  (For
N = 0 no file is ever created.) -/
theorem C2_archive_shape (r : Rec) (rs : List Rec) :
    fsGet (runC2 (r :: rs)).fs "log.1000.json" =
      some (renderArchive (((r :: rs).reverse).map Rec.atDrain)) := by
  have hpush := pushAll_not_disposed chron0 (r :: rs) rfl
  rcases hrev : (r :: rs).reverse with _ | ⟨a, l⟩
  · exact absurd hrev (by simp)
  · have hdrain : runOps [] chron0drained ((r :: rs).reverse) =
        (Except.ok (),
          { chron0afterFirst a with
              fs := appendChain (chron0afterFirst a).fs "log.1000.json" l
              firstWrite := false }) := by
      rw [hrev]
      exact runOps_fresh a l
    have hda := disposeAsync_drain []
      { chron0 with operationQueue := chron0.operationQueue ++ (r :: rs) } () _
      "log.1000.json" rfl rfl (by simp) hdrain rfl
    rw [runC2, hpush, hda]
    dsimp only
    rw [fsGet_fsAppend_self,
      fsGet_appendChain l (chron0afterFirst a).fs "log.1000.json" ("[" ++ a.atDrain) rfl]
    simp [renderArchive, sepJoin_tailJoin, String.append_assoc]

/-! ### Which fields each operation can touch

`compactLogs` only rewrites the directory; `rotateLog` and the queued
operations additionally touch the active-file bookkeeping — but never the
scheduler fields (`disposed`, `disposePromise`, `nextPromise`,
`operationPromise`, `operationQueue`).  These shape lemmas drive the
idempotence proof for disposal. -/

theorem compactLogs_shape (f : List String) (s : ChronState) :
    (compactLogs f s).2 = { s with fs := (compactLogs f s).2.fs } := by
  unfold compactLogs
  dsimp only

theorem rotateLog_shape (f : List String) (s : ChronState) :
    ∃ fw fh cf lr fs2 cl,
      (rotateLog f s).2 =
        { s with firstWrite := fw, fileHandle := fh, currentFile := cf,
                 lastRotationMs := lr, fs := fs2, closed := cl } := by
  unfold rotateLog createLogFile
  dsimp only
  rcases hfh : s.fileHandle with _ | h
  · rcases hc : compactLogs f
        { s with fs := fsSet s.fs (generateFilename s) "[",
                 fileHandle := some (generateFilename s),
                 currentFile := some (generateFilename s) } with ⟨cr, s3⟩
    have hsh := compactLogs_shape f
      { s with fs := fsSet s.fs (generateFilename s) "[",
               fileHandle := some (generateFilename s),
               currentFile := some (generateFilename s) }
    rw [hc] at hsh
    dsimp only at hsh
    cases cr with
    | error e =>
      dsimp only
      rw [hsh]
      exact ⟨_, _, _, _, _, _, rfl⟩
    | ok u =>
      dsimp only
      rw [hsh]
      exact ⟨_, _, _, _, _, _, rfl⟩
  · rcases hc : compactLogs f
        { s with fs := fsAppend (fsSet s.fs (generateFilename s) "[") h "]",
                 fileHandle := some (generateFilename s),
                 currentFile := some (generateFilename s),
                 closed := s.closed ++ [h] } with ⟨cr, s3⟩
    have hsh := compactLogs_shape f
      { s with fs := fsAppend (fsSet s.fs (generateFilename s) "[") h "]",
               fileHandle := some (generateFilename s),
               currentFile := some (generateFilename s),
               closed := s.closed ++ [h] }
    rw [hc] at hsh
    dsimp only at hsh
    cases cr with
    | error e =>
      dsimp only
      rw [hsh]
      exact ⟨_, _, _, _, _, _, rfl⟩
    | ok u =>
      dsimp only
      rw [hsh]
      exact ⟨_, _, _, _, _, _, rfl⟩

/-- The scheduler-owned fields, which no file operation may touch. -/
def SameSched (s t : ChronState) : Prop :=
  t.operationQueue = s.operationQueue ∧ t.operationPromise = s.operationPromise ∧
  t.disposePromise = s.disposePromise ∧ t.disposed = s.disposed ∧
  t.nextPromise = s.nextPromise

theorem sameSched_trans {a b c : ChronState} (h1 : SameSched a b) (h2 : SameSched b c) :
    SameSched a c := by
  obtain ⟨q1, p1, d1, x1, n1⟩ := h1
  obtain ⟨q2, p2, d2, x2, n2⟩ := h2
  exact ⟨q2.trans q1, p2.trans p1, d2.trans d1, x2.trans x1, n2.trans n1⟩

theorem sameSched_rotateLog {f : List String} {x s2 : ChronState} {rr : Except String String}
    (heq : rotateLog f x = (rr, s2)) : SameSched x s2 := by
  obtain ⟨fw, fh, cf, lr, fs2, cl, hsh⟩ := rotateLog_shape f x
  rw [heq] at hsh
  dsimp only at hsh
  rw [hsh]
  exact ⟨rfl, rfl, rfl, rfl, rfl⟩

theorem sameSched_runOp (f : List String) (s : ChronState) (r : Rec) :
    SameSched s (runOp f s r).2 := by
  unfold runOp createLogFile
  dsimp only
  split
  next e s2 heq =>
    dsimp only
    split at heq
    · split at heq
      · split at heq
        next e2 s2x hre =>
          injection heq with h1 h2
          subst h2
          refine sameSched_trans ?_ (sameSched_rotateLog hre)
          exact ⟨rfl, rfl, rfl, rfl, rfl⟩
        next u2 s2x hre =>
          simp at heq
      · simp at heq
    · split at heq
      · split at heq
        next e2 s2x hre =>
          injection heq with h1 h2
          subst h2
          exact sameSched_rotateLog hre
        next u2 s2x hre =>
          simp at heq
      · simp at heq
  next u s2 heq =>
    dsimp only
    have hs2 : SameSched s s2 := by
      split at heq
      · split at heq
        · split at heq
          next e2 s2x hre =>
            simp at heq
          next u2 s2x hre =>
            injection heq with h1 h2
            subst h2
            refine sameSched_trans ?_ (sameSched_rotateLog hre)
            exact ⟨rfl, rfl, rfl, rfl, rfl⟩
        · injection heq with h1 h2
          subst h2
          exact ⟨rfl, rfl, rfl, rfl, rfl⟩
      · split at heq
        · split at heq
          next e2 s2x hre =>
            simp at heq
          next u2 s2x hre =>
            injection heq with h1 h2
            subst h2
            exact sameSched_rotateLog hre
        · injection heq with h1 h2
          subst h2
          exact ⟨rfl, rfl, rfl, rfl, rfl⟩
    split
    · exact sameSched_trans hs2 ⟨rfl, rfl, rfl, rfl, rfl⟩
    · exact sameSched_trans hs2 ⟨rfl, rfl, rfl, rfl, rfl⟩

theorem sameSched_runOps (f : List String) (rs : List Rec) (s : ChronState) :
    SameSched s (runOps f s rs).2 := by
  induction rs generalizing s with
  | nil => exact ⟨rfl, rfl, rfl, rfl, rfl⟩
  | cons r rs ih =>
    rw [runOps]
    rcases hro : runOp f s r with ⟨rr, s2⟩
    have h1 : SameSched s s2 := by
      have h0 := sameSched_runOp f s r
      rw [hro] at h0
      exact h0
    cases rr with
    | error e => exact h1
    | ok u => exact sameSched_trans h1 (ih s2)

theorem disposeAsync_fields (f : List String) (s : ChronState) (hnd : s.disposed = false) :
    (disposeAsync f s).1 = some s.nextPromise ∧
    (disposeAsync f s).2.disposed = true ∧
    (disposeAsync f s).2.disposePromise = some s.nextPromise := by
  unfold disposeAsync
  rw [if_neg (by simp [hnd])]
  dsimp only
  split
  next e s3 heq =>
    split at heq
    · have h2 : (processFileOperations f
          { s with disposed := true, nextPromise := s.nextPromise + 1,
                   disposePromise := some s.nextPromise }).2 = s3 := by
        rw [heq]
      have h0x : SameSched
          { s with disposed := true, nextPromise := s.nextPromise + 1,
                   disposePromise := some s.nextPromise, operationQueue := [] }
          s3 := by
        rw [← h2]
        exact sameSched_runOps f s.operationQueue.reverse _
      obtain ⟨hq, hp, hdp, hdd, hnp⟩ := h0x
      exact ⟨rfl, hdd, hdp⟩
    · simp at heq
  next u s3 heq =>
    split at heq
    · have h2 : (processFileOperations f
          { s with disposed := true, nextPromise := s.nextPromise + 1,
                   disposePromise := some s.nextPromise }).2 = s3 := by
        rw [heq]
      have h0x : SameSched
          { s with disposed := true, nextPromise := s.nextPromise + 1,
                   disposePromise := some s.nextPromise, operationQueue := [] }
          s3 := by
        rw [← h2]
        exact sameSched_runOps f s.operationQueue.reverse _
      obtain ⟨hq, hp, hdp, hdd, hnp⟩ := h0x
      split
      · exact ⟨rfl, hdd, hdp⟩
      · exact ⟨rfl, hdd, hdp⟩
    · injection heq with h1 h2
      subst h2
      split
      · exact ⟨rfl, rfl, rfl⟩
      · exact ⟨rfl, rfl, rfl⟩

/-- C8: `disposeAsync` is idempotent — a second call made after disposal has
begun returns the very same disposal promise and performs no work at all:
the state (file system included, so the closed file is neither reopened nor
rewritten) is returned bit-for-bit unchanged, and no error is raised. -/
theorem C8_dispose_idempotent (f : List String) (s : ChronState) (hnd : s.disposed = false) :
    disposeAsync f (disposeAsync f s).2 = ((disposeAsync f s).1, (disposeAsync f s).2) ∧
    (disposeAsync f s).2.disposed = true := by
  obtain ⟨h1, h2, h3⟩ := disposeAsync_fields f s hnd
  refine ⟨?_, h2⟩
  set t := disposeAsync f s with ht
  unfold disposeAsync
  rw [if_pos h2, h3, h1]

/-- C8 witness: concrete double disposal of a fresh instance. -/
theorem C8_witness :
    disposeAsync [] (disposeAsync [] chron0).2 =
      ((disposeAsync [] chron0).1, (disposeAsync [] chron0).2) ∧
    (disposeAsync [] chron0).2.disposed = true :=
  C8_dispose_idempotent [] chron0 rfl

/-! ### C9 — the pipeline reads records only at drain time -/

theorem runOp_atDrain (f : List String) (s : ChronState) (r r' : Rec)
    (h : r.atDrain = r'.atDrain) : runOp f s r = runOp f s r' := by
  simp only [runOp, h]

theorem runOps_atDrain (f : List String) (rs rs' : List Rec) (s : ChronState)
    (h : rs.map Rec.atDrain = rs'.map Rec.atDrain) :
    runOps f s rs = runOps f s rs' := by
  induction rs generalizing rs' s with
  | nil =>
    cases rs' with
    | nil => rfl
    | cons b m => simp at h
  | cons a l ih =>
    cases rs' with
    | nil => simp at h
    | cons b m =>
      simp only [List.map_cons, List.cons.injEq] at h
      obtain ⟨h1, h2⟩ := h
      rw [runOps, runOps, runOp_atDrain f s a b h1]
      rcases hbo : runOp f s b with ⟨rr, s2⟩
      cases rr with
      | error e => rfl
      | ok u => exact ih m s2 h2

theorem dispose_atDrain (f : List String) (s : ChronState) (rs rs' : List Rec)
    (hnd : s.disposed = false) (hop : s.operationPromise = none)
    (h : rs.map Rec.atDrain = rs'.map Rec.atDrain) :
    disposeAsync f { s with operationQueue := rs } =
    disposeAsync f { s with operationQueue := rs' } := by
  cases rs with
  | nil =>
    cases rs' with
    | nil => rfl
    | cons b m => simp at h
  | cons a l =>
    cases rs' with
    | nil => simp at h
    | cons b m =>
      unfold disposeAsync
      rw [if_neg (by simp [hnd]), if_neg (by simp [hnd])]
      dsimp only
      rw [if_pos (show (s.operationPromise == none
            && decide (0 < (a :: l).length)) = true from by simp [hop]),
          if_pos (show (s.operationPromise == none
            && decide (0 < (b :: m).length)) = true from by simp [hop])]
      have hrw : processFileOperations f
          { s with operationQueue := a :: l, disposed := true,
                   nextPromise := s.nextPromise + 1, disposePromise := some s.nextPromise } =
          processFileOperations f
          { s with operationQueue := b :: m, disposed := true,
                   nextPromise := s.nextPromise + 1, disposePromise := some s.nextPromise } := by
        unfold processFileOperations
        dsimp only
        exact runOps_atDrain f ((a :: l).reverse) ((b :: m).reverse) _
          (by simp only [List.map_reverse, h])
      rw [hrw]

/-- C9 (amended): serialization happens at *drain* time, not submission
time: the queued closure keeps a reference to the record, so two runs whose
records have equal serialized forms at the moment the drain executes produce
identical file contents — equality at submission time is neither required
nor sufficient. -/
theorem C9_drain_time_serialization (rs rs' : List Rec)
    (h : rs.map Rec.atDrain = rs'.map Rec.atDrain) :
    (disposeAsync [] (pushAll chron0 rs)).2.fs =
    (disposeAsync [] (pushAll chron0 rs')).2.fs := by
  rw [pushAll_not_disposed chron0 rs rfl, pushAll_not_disposed chron0 rs' rfl]
  have hd := dispose_atDrain [] chron0 (chron0.operationQueue ++ rs)
    (chron0.operationQueue ++ rs') rfl rfl (by simpa [chron0, newChronicler] using h)
  rw [hd]

/-- C9 witness: two records that differ at submission but agree at drain
time yield the same file. -/
theorem C9_drain_witness :
    (disposeAsync [] (pushAll chron0 [⟨"A", "C"⟩])).2.fs =
    (disposeAsync [] (pushAll chron0 [⟨"B", "C"⟩])).2.fs :=
  C9_drain_time_serialization [⟨"A", "C"⟩] [⟨"B", "C"⟩] rfl

/-! ### C10 — external deletion of the active file mid-life -/

/-- Write one record (batch drains), have an external actor delete the
active file, let the clock move on (rotation still not due), then write a
second record in a later batch. -/
def runC10 (r1 r2 : Rec) : ChronState :=
  let s1 := (processFileOperations [] (pushAll chron0 [r1])).2
  let s2 := tick (externalDelete s1 "log.1000.json") 1400
  (processFileOperations [] (pushAll s2 [r2])).2

/-- C10: when the active file is found missing after a successful append
has already happened, `saveRecord`'s operation re-creates a file — but the
creation path does not reset `firstWrite`, so the very first record written
to the replacement file is still prefixed with `,\n`: its bytes begin
`[,\n<record>`. -/
theorem C10_recreate_keeps_firstWrite (r1 r2 : Rec) :
    fsGet (runC10 r1 r2).fs "log.1400.json" = some ("[" ++ (",\n" ++ r2.atDrain)) ∧
    (runC10 r1 r2).firstWrite = false :=
  ⟨rfl, rfl⟩

/-! ### C6 — rotation vs. compaction failure -/

/-- Whether an `Except` settled successfully. -/
def exOk {e a : Type} : Except e a → Bool
  | Except.ok _ => true
  | Except.error _ => false

/-- The value a settled `Except` resolved with, if any. -/
def exVal {e a : Type} : Except e a → Option a
  | Except.ok v => some v
  | Except.error _ => none

/-- A chronicler mid-life whose directory holds one retired file
`log.1000.json` (eligible for compaction) besides the active
`log.2000.json`. -/
def stateC6 : ChronState :=
  { firstWrite := false, fileHandle := some "log.2000.json",
    currentFile := some "log.2000.json", operationQueue := [], operationPromise := none,
    disposePromise := none, lastRotationMs := some 2000, disposed := false,
    logName := "log", rotationIntervalMs := 500000,
    fs := [("log.1000.json", "[x]"), ("log.2000.json", "[y")], closed := [],
    nextPromise := 0, clock := 3000 }

/-- C6 (counterexample): `rotateLog` *awaits* `compactLogs`, so when
compressing the retired `log.1000.json` fails, `rotateLog` rejects instead
of resolving with the new filename, and neither resets `firstWrite` nor
stamps `lastRotationTimestamp` — contradicting the claim that a compaction
failure cannot prevent rotation from completing. -/
theorem C6_counterexample :
    (rotateLog ["log.1000.json"] stateC6).1 =
      Except.error "pipeline failed: log.1000.json" ∧
    (rotateLog ["log.1000.json"] stateC6).2.firstWrite = false ∧
    (rotateLog ["log.1000.json"] stateC6).2.lastRotationMs = some 2000 :=
  ⟨rfl, rfl, rfl⟩

/-- C6 (amended): `rotateLog` always creates and installs the new file and
closes the previous handle, but it awaits compaction synchronously: it
resolves — with the new filename, `firstWrite` reset and the rotation
timestamp stamped — exactly when compaction of the retired files succeeds;
on a compaction failure it rejects with that error, leaving `firstWrite`
and `lastRotationTimestamp` unchanged. -/
theorem C6_rotate_awaits_compaction (f : List String) (s : ChronState) (h0 : String)
    (hh : s.fileHandle = some h0) :
    (rotateLog f s).2.currentFile = some (generateFilename s) ∧
    (rotateLog f s).2.fileHandle = some (generateFilename s) ∧
    (rotateLog f s).2.closed = s.closed ++ [h0] ∧
    (rotateLog f s).2.firstWrite =
      (if exOk (rotateLog f s).1 then true else s.firstWrite) ∧
    (rotateLog f s).2.lastRotationMs =
      (if exOk (rotateLog f s).1 then some s.clock else s.lastRotationMs) ∧
    exVal (rotateLog f s).1 =
      (if exOk (rotateLog f s).1 then some (generateFilename s) else none) := by
  unfold rotateLog createLogFile
  rw [hh]
  dsimp only
  split
  next e s3 heq =>
    have hsh := compactLogs_shape f
      { s with fs := fsAppend (fsSet s.fs (generateFilename s) "[") h0 "]",
               fileHandle := some (generateFilename s),
               currentFile := some (generateFilename s),
               closed := s.closed ++ [h0] }
    rw [heq] at hsh
    dsimp only at hsh
    rw [hsh]
    exact ⟨rfl, rfl, rfl, rfl, rfl, rfl⟩
  next u s3 heq =>
    have hsh := compactLogs_shape f
      { s with fs := fsAppend (fsSet s.fs (generateFilename s) "[") h0 "]",
               fileHandle := some (generateFilename s),
               currentFile := some (generateFilename s),
               closed := s.closed ++ [h0] }
    rw [heq] at hsh
    dsimp only at hsh
    rw [hsh]
    exact ⟨rfl, rfl, rfl, rfl, rfl, rfl⟩

/-- C6 witness: the same rotation with no failing compression — it resolves
with the new filename `log.3000.json` and the bookkeeping is updated. -/
theorem C6_rotate_witness :
    (rotateLog [] stateC6).2.currentFile = some (generateFilename stateC6) ∧
    (rotateLog [] stateC6).2.fileHandle = some (generateFilename stateC6) ∧
    (rotateLog [] stateC6).2.closed = stateC6.closed ++ ["log.2000.json"] ∧
    (rotateLog [] stateC6).2.firstWrite =
      (if exOk (rotateLog [] stateC6).1 then true else stateC6.firstWrite) ∧
    (rotateLog [] stateC6).2.lastRotationMs =
      (if exOk (rotateLog [] stateC6).1 then some stateC6.clock
        else stateC6.lastRotationMs) ∧
    exVal (rotateLog [] stateC6).1 =
      (if exOk (rotateLog [] stateC6).1 then some (generateFilename stateC6) else none) :=
  C6_rotate_awaits_compaction [] stateC6 "log.2000.json" rfl
